import Mathlib

/-!
# Verification of the `perf-counter` core (src/src/perf_counter.c)

A shallow embedding of the counter-handle lifecycle: the syscall gateway,
the metadata-page mapping, the counter handle constructors
(`perf_counter_open`, `perf_counter_open_by_id`, `perf_counter_open_by_name`),
teardown (`perf_counter_close`), and the group control operations
(`perf_counter_enable` / `perf_counter_disable`).

The operating system and the external encoding library (libpfm) are modelled
as an oracle record `OS`; the side effects the code performs (syscalls issued,
descriptors closed, pages unmapped, library initialization calls) are recorded
in an explicit event trace.  The one-time lazy initialization guard
`ensure_libpfm_initialized` is modelled twice: as a sequential state-threading
function (for the open-by-name paths) and as a full interleaving transition
system over N threads (for the concurrency claims).
-/

/-- The subset of `struct perf_event_attr` fields the code reads or writes,
plus representative "other" fields (`sample_period`, `inherit`, `mmap`,
`comm`) and a catch-all `other_fields` standing for every remaining bit of
the structure.  The C code zero-initializes the whole struct
(`struct perf_event_attr attr = {0}`), which corresponds to `zeroAttr`. -/
structure PerfEventAttr where
  size : Nat
  type : Nat
  config : Nat
  pinned : Bool
  disabled : Bool
  exclude_kernel : Bool
  exclude_hv : Bool
  sample_period : Nat
  inherit : Bool
  mmap : Bool
  comm : Bool
  other_fields : Nat
deriving DecidableEq, Repr

/-- `sizeof(struct perf_event_attr)` as the code's headers define it. -/
def sizeof_perf_event_attr : Nat := 128

/-- The all-zero attribute struct, i.e. `struct perf_event_attr attr = {0}`. -/
def zeroAttr : PerfEventAttr :=
  { size := 0, type := 0, config := 0, pinned := false, disabled := false,
    exclude_kernel := false, exclude_hv := false, sample_period := 0,
    inherit := false, mmap := false, comm := false, other_fields := 0 }

/-- `PERF_EVENT_IOC_ENABLE` request code. -/
def PERF_EVENT_IOC_ENABLE : Nat := 0x2400

/-- `PERF_EVENT_IOC_DISABLE` request code. -/
def PERF_EVENT_IOC_DISABLE : Nat := 0x2401

/-- `PERF_IOC_FLAG_GROUP`: propagate enable/disable to the whole group. -/
def PERF_IOC_FLAG_GROUP : Nat := 1

/-- Observable side effects of the code: kernel calls issued and the
one-time external-library initialization call. -/
inductive SysEvent
  /-- `sys_perf_event_open(attr, group_fd)` was invoked. -/
  | sysOpen (attr : PerfEventAttr) (group_fd : Int)
  /-- `close(fd)` was invoked. -/
  | sysClose (fd : Int)
  /-- `munmap(addr, len)` was invoked. -/
  | sysMunmap (addr : Nat) (len : Int)
  /-- `ioctl(fd, req, arg)` was invoked. -/
  | sysIoctl (fd : Int) (req : Nat) (arg : Nat)
  /-- `pfm_initialize()` was invoked. -/
  | pfmInit
deriving DecidableEq, Repr

/-- The environment oracle: kernel behaviour and libpfm behaviour.
`perf_event_open` returns a descriptor (negative on failure);
`sysconf_pagesize` is the result of `sysconf(_SC_PAGESIZE)` (< 1 on failure);
`mmap_page fd len` returns the mapped address or `none` for `MAP_FAILED`;
`ioctl` returns the kernel's result; `pfm_init_ok` is whether
`pfm_initialize()` returns `PFM_SUCCESS`; `pfm_get_os_event_encoding name`
is the attribute struct the translation fills in, or `none` when the call
does not return `PFM_SUCCESS`. -/
structure OS where
  perf_event_open : PerfEventAttr → Int → Int
  sysconf_pagesize : Int
  mmap_page : Int → Int → Option Nat
  ioctl : Int → Nat → Nat → Int
  pfm_init_ok : Bool
  pfm_get_os_event_encoding : String → Option PerfEventAttr

/-- `struct perf_counter`: a descriptor and an optional metadata-page
mapping (`none` models the `NULL` pointer). -/
structure perf_counter where
  fd : Int
  metadata_page : Option Nat
deriving DecidableEq, Repr

/-- The closed sentinel pair `{.fd = -1, .metadata_page = NULL}`. -/
def closedCounter : perf_counter := { fd := -1, metadata_page := none }

/-- `get_page_size()`: returns `sysconf(_SC_PAGESIZE)`, or `-1` if that
result is `< 1`. -/
def get_page_size (os : OS) : Int :=
  if os.sysconf_pagesize < 1 then -1 else os.sysconf_pagesize

/-- `mmap_perf_metadata_page(fd)`: query the page size (failure → `NULL`),
then map one read-only shared page backed by `fd` (failure → `NULL`). -/
def mmap_perf_metadata_page (os : OS) (fd : Int) : Option Nat :=
  let page_size := get_page_size os
  if page_size < 0 then none
  else os.mmap_page fd page_size

/-- `perf_counter_open(attr, group_fd)`: invoke the syscall gateway; on
failure return the closed sentinel; on success map the metadata page; if
mapping fails, `close(fd)` and return the closed sentinel; otherwise return
the open handle.  The second component is the trace of side effects. -/
def perf_counter_open (os : OS) (attr : PerfEventAttr) (group_fd : Int) :
    perf_counter × List SysEvent :=
  let fd := os.perf_event_open attr group_fd
  if fd < 0 then
    (closedCounter, [SysEvent.sysOpen attr group_fd])
  else
    match mmap_perf_metadata_page os fd with
    | none =>
        (closedCounter, [SysEvent.sysOpen attr group_fd, SysEvent.sysClose fd])
    | some page =>
        ({ fd := fd, metadata_page := some page },
         [SysEvent.sysOpen attr group_fd])

/-- The attribute struct `perf_counter_open_by_id` builds from
`(event_type, event_config, group_fd)`: zero-initialized, then `size`,
`type`, `config` set; `pinned` iff standalone (`group_fd == -1`);
`disabled`, `exclude_kernel`, `exclude_hv` always set. -/
def perf_counter_open_by_id_attr (event_type : Nat) (event_config : Nat)
    (group_fd : Int) : PerfEventAttr :=
  { zeroAttr with
    size := sizeof_perf_event_attr,
    type := event_type,
    config := event_config,
    pinned := group_fd = -1,
    disabled := true,
    exclude_kernel := true,
    exclude_hv := true }

/-- `perf_counter_open_by_id(event_type, event_config, group_fd)`. -/
def perf_counter_open_by_id (os : OS) (event_type : Nat) (event_config : Nat)
    (group_fd : Int) : perf_counter × List SysEvent :=
  perf_counter_open os (perf_counter_open_by_id_attr event_type event_config group_fd)
    group_fd

/-- The process-wide one-time initialization state
(`STATE_UNINITIALIZED` / `STATE_IN_PROGRESS` / `STATE_SUCCESS` /
`STATE_FAILED` in `ensure_libpfm_initialized`). -/
inductive GState
  | uninit
  | inProgress
  | success
  | failed
deriving DecidableEq, Repr

/-- Single-caller execution of `ensure_libpfm_initialized`, threading the
static atomic state explicitly.  In a terminal state it returns at once with
no side effect; from `uninit` the caller wins the compare-and-swap, invokes
`pfm_initialize()` (recorded in the trace) and publishes the terminal state.
From `inProgress` a single caller busy-waits forever (no other thread exists
to publish a terminal state), which is modelled as `none` (divergence).
The result is `(return value, new state, trace)`. -/
def ensure_libpfm_initialized_seq (pfm_init_ok : Bool) (s : GState) :
    Option (Bool × GState × List SysEvent) :=
  match s with
  | GState.success => some (true, GState.success, [])
  | GState.failed => some (false, GState.failed, [])
  | GState.uninit =>
      some (pfm_init_ok,
            if pfm_init_ok then GState.success else GState.failed,
            [SysEvent.pfmInit])
  | GState.inProgress => none

/-- The adjustments `perf_counter_open_by_name` applies on top of the
translated encoding before delegating to `perf_counter_open`:
`if (group_fd == -1) attr.pinned = 1;` then `attr.disabled = 1;`.
Nothing else of the translated attribute is touched. -/
def nameAttr (tattr : PerfEventAttr) (group_fd : Int) : PerfEventAttr :=
  let attr1 := if group_fd = -1 then { tattr with pinned := true } else tattr
  { attr1 with disabled := true }

/-- `perf_counter_open_by_name(event_name, group_fd)` (single-caller view,
threading the initialization state): ensure the library is initialized
(closed handle if that fails); translate the name (closed handle on failure,
before any kernel call); on success set `pinned` when standalone, set
`disabled`, and delegate to `perf_counter_open`.  `none` models divergence
of the busy-wait (state `inProgress` with no publisher). -/
def perf_counter_open_by_name (os : OS) (s : GState) (event_name : String)
    (group_fd : Int) : Option (perf_counter × GState × List SysEvent) :=
  match ensure_libpfm_initialized_seq os.pfm_init_ok s with
  | none => none
  | some (ok, s1, ev0) =>
      if ok = false then
        some (closedCounter, s1, ev0)
      else
        match os.pfm_get_os_event_encoding event_name with
        | none => some (closedCounter, s1, ev0)
        | some tattr =>
            let r := perf_counter_open os (nameAttr tattr group_fd) group_fd
            some (r.1, s1, ev0 ++ r.2)

/-- `perf_counter_close(pc)`: if the metadata page is mapped, query the page
size and `munmap` only when the query succeeded (skip otherwise), then clear
the mapping; if the descriptor is not the `-1` sentinel, `close` it and
reset it to `-1`.  Returns the updated handle and the trace. -/
def perf_counter_close (os : OS) (pc : perf_counter) :
    perf_counter × List SysEvent :=
  let step1 : perf_counter × List SysEvent :=
    match pc.metadata_page with
    | some page =>
        let page_size := get_page_size os
        if page_size > 0 then
          ({ pc with metadata_page := none }, [SysEvent.sysMunmap page page_size])
        else
          ({ pc with metadata_page := none }, [])
    | none => (pc, [])
  if step1.1.fd = -1 then
    step1
  else
    ({ step1.1 with fd := -1 }, step1.2 ++ [SysEvent.sysClose step1.1.fd])

/-- `perf_counter_enable(pc)`: issue the group-wide enable ioctl on
`pc->fd` and return its result.  The handle is returned as the first
component to make explicit that its fields are untouched. -/
def perf_counter_enable (os : OS) (pc : perf_counter) :
    perf_counter × Int × List SysEvent :=
  (pc, os.ioctl pc.fd PERF_EVENT_IOC_ENABLE PERF_IOC_FLAG_GROUP,
   [SysEvent.sysIoctl pc.fd PERF_EVENT_IOC_ENABLE PERF_IOC_FLAG_GROUP])

/-- `perf_counter_disable(pc)`: issue the group-wide disable ioctl. -/
def perf_counter_disable (os : OS) (pc : perf_counter) :
    perf_counter × Int × List SysEvent :=
  (pc, os.ioctl pc.fd PERF_EVENT_IOC_DISABLE PERF_IOC_FLAG_GROUP,
   [SysEvent.sysIoctl pc.fd PERF_EVENT_IOC_DISABLE PERF_IOC_FLAG_GROUP])

/-- The handle invariant: fully-closed (sentinel descriptor, no mapping) or
fully-open (non-negative descriptor, mapping present). -/
def handleWellFormed (pc : perf_counter) : Prop :=
  (pc.fd = -1 ∧ pc.metadata_page = none) ∨
  (0 ≤ pc.fd ∧ pc.metadata_page ≠ none)

instance (pc : perf_counter) : Decidable (handleWellFormed pc) := by
  unfold handleWellFormed; infer_instance

/-! ## Concrete environments used by witnesses and counterexamples -/

/-- An environment where every kernel call and library call succeeds. -/
def osOpenOk : OS :=
  { perf_event_open := fun _ _ => 3,
    sysconf_pagesize := 4096,
    mmap_page := fun _ _ => some 7,
    ioctl := fun _ _ _ => 0,
    pfm_init_ok := true,
    pfm_get_os_event_encoding := fun _ => some { zeroAttr with type := 4, config := 2 } }

/-- Like `osOpenOk` but the metadata-page mapping request fails. -/
def osMmapFail : OS := { osOpenOk with mmap_page := fun _ _ => none }

/-- Like `osOpenOk` but the page-size query fails. -/
def osPageFail : OS := { osOpenOk with sysconf_pagesize := 0 }

/-- Like `osOpenOk` but `pfm_initialize()` fails. -/
def osInitFail : OS := { osOpenOk with pfm_init_ok := false }

/-- Like `osOpenOk` but the name translation fails. -/
def osEncodeFail : OS :=
  { osOpenOk with pfm_get_os_event_encoding := fun _ => none }

/-- Like `osOpenOk` but the name translation produces an encoding that
already has the `pinned` bit set. -/
def osEncodePinned : OS :=
  { osOpenOk with
    pfm_get_os_event_encoding := fun _ => some { zeroAttr with type := 4, pinned := true } }

/-! ## Helper lemmas -/

/-- Every branch of `perf_counter_open` issues the kernel-open call first. -/
theorem perf_counter_open_trace_head (os : OS) (attr : PerfEventAttr) (gfd : Int) :
    (perf_counter_open os attr gfd).2.head? = some (SysEvent.sysOpen attr gfd) := by
  simp only [perf_counter_open]
  split
  · rfl
  · split <;> rfl

/-- The handle `perf_counter_open` returns satisfies the pairing invariant. -/
theorem perf_counter_open_wf (os : OS) (attr : PerfEventAttr) (gfd : Int) :
    handleWellFormed (perf_counter_open os attr gfd).1 := by
  simp only [perf_counter_open]
  split
  · exact Or.inl ⟨rfl, rfl⟩
  · rename_i hfd
    split
    · exact Or.inl ⟨rfl, rfl⟩
    · refine Or.inr ⟨?_, ?_⟩
      · show (0 : Int) ≤ os.perf_event_open attr gfd
        omega
      · simp

/-- The pairing invariant implies the mapping-iff-valid-descriptor law. -/
theorem handleWellFormed_iff (pc : perf_counter) (h : handleWellFormed pc) :
    pc.metadata_page ≠ none ↔ 0 ≤ pc.fd := by
  rcases h with ⟨hfd, hpg⟩ | ⟨hfd, hpg⟩
  · rw [hfd, hpg]; simp
  · simp [hpg, hfd]

/-- The handle returned through the open-by-name path satisfies the
pairing invariant. -/
theorem perf_counter_open_by_name_result_wf (os : OS) (s : GState)
    (event_name : String) (gfd : Int) (pc : perf_counter) (s1 : GState)
    (tr : List SysEvent)
    (h : perf_counter_open_by_name os s event_name gfd = some (pc, s1, tr)) :
    handleWellFormed pc := by
  unfold perf_counter_open_by_name at h
  split at h
  · exact absurd h (by simp)
  · split at h
    · simp only [Option.some.injEq, Prod.mk.injEq] at h
      rw [← h.1]
      exact Or.inl ⟨rfl, rfl⟩
    · split at h
      · simp only [Option.some.injEq, Prod.mk.injEq] at h
        rw [← h.1]
        exact Or.inl ⟨rfl, rfl⟩
      · simp only [Option.some.injEq, Prod.mk.injEq] at h
        rw [← h.1]
        exact perf_counter_open_wf os _ gfd

/-- Claim C1: every construction variant (`perf_counter_open`,
`perf_counter_open_by_id`, `perf_counter_open_by_name`) returns a handle
that is either fully-open (non-negative descriptor, mapping present) or
fully-closed (`-1`, no mapping); the mapping is present iff the descriptor
is valid. -/
theorem claim_open_variants_wellFormed (os : OS) (attr : PerfEventAttr)
    (event_type event_config : Nat) (s : GState) (event_name : String)
    (gfd : Int) :
    (handleWellFormed (perf_counter_open os attr gfd).1
      ∧ ((perf_counter_open os attr gfd).1.metadata_page ≠ none ↔
          0 ≤ (perf_counter_open os attr gfd).1.fd))
    ∧ (handleWellFormed (perf_counter_open_by_id os event_type event_config gfd).1
      ∧ ((perf_counter_open_by_id os event_type event_config gfd).1.metadata_page ≠ none ↔
          0 ≤ (perf_counter_open_by_id os event_type event_config gfd).1.fd))
    ∧ (∀ pc s1 tr,
        perf_counter_open_by_name os s event_name gfd = some (pc, s1, tr) →
        handleWellFormed pc ∧ (pc.metadata_page ≠ none ↔ 0 ≤ pc.fd)) := by
  refine ⟨⟨perf_counter_open_wf os attr gfd,
            handleWellFormed_iff _ (perf_counter_open_wf os attr gfd)⟩,
          ⟨perf_counter_open_wf os _ gfd,
            handleWellFormed_iff _ (perf_counter_open_wf os _ gfd)⟩, ?_⟩
  intro pc s1 tr h
  have hwf := perf_counter_open_by_name_result_wf os s event_name gfd pc s1 tr h
  exact ⟨hwf, handleWellFormed_iff pc hwf⟩

/-- Witness for C1 at a concrete environment and input. -/
theorem claim_open_variants_wellFormed_witness :
    handleWellFormed closedCounter ∧
      (closedCounter.metadata_page ≠ none ↔ 0 ≤ closedCounter.fd) :=
  (claim_open_variants_wellFormed osInitFail zeroAttr 0 0 GState.failed "ev"
      (-1)).2.2 closedCounter GState.failed [] rfl

/-- Claim C2: when the kernel-open yields a non-negative descriptor but the
metadata mapping fails, `perf_counter_open` closes that descriptor and
returns the closed sentinel. -/
theorem claim_open_releases_fd_on_mmap_failure (os : OS) (attr : PerfEventAttr)
    (gfd : Int) (hfd : 0 ≤ os.perf_event_open attr gfd)
    (hm : mmap_perf_metadata_page os (os.perf_event_open attr gfd) = none) :
    perf_counter_open os attr gfd =
      (closedCounter,
       [SysEvent.sysOpen attr gfd,
        SysEvent.sysClose (os.perf_event_open attr gfd)]) := by
  simp only [perf_counter_open]
  rw [if_neg (by omega), hm]

/-- Witness for C2: an environment whose mapping request fails. -/
theorem claim_open_releases_fd_on_mmap_failure_witness :
    (0 ≤ osMmapFail.perf_event_open zeroAttr 0
      ∧ mmap_perf_metadata_page osMmapFail (osMmapFail.perf_event_open zeroAttr 0) = none)
    ∧ perf_counter_open osMmapFail zeroAttr 0 =
        (closedCounter,
         [SysEvent.sysOpen zeroAttr 0,
          SysEvent.sysClose (osMmapFail.perf_event_open zeroAttr 0)]) :=
  ⟨⟨by decide, by decide⟩,
   claim_open_releases_fd_on_mmap_failure osMmapFail zeroAttr 0 (by decide)
     (by decide)⟩

/-- After `perf_counter_close` both fields hold the closed sentinels. -/
theorem perf_counter_close_fst (os : OS) (pc : perf_counter) :
    (perf_counter_close os pc).1 = closedCounter := by
  obtain ⟨fd, page⟩ := pc
  simp only [perf_counter_close]
  cases page <;> by_cases h : fd = -1 <;>
    simp [h, closedCounter] <;> split <;> simp [closedCounter]

/-- Closing the closed sentinel performs no action. -/
theorem perf_counter_close_closed (os : OS) :
    perf_counter_close os closedCounter = (closedCounter, []) := by
  simp [perf_counter_close, closedCounter]

/-- Claim C3: close resets both fields to the closed sentinels for every
handle; close on an already-closed handle is a no-op (no events, fields
unchanged); hence a second close after a first close is a no-op. -/
theorem claim_close_resets_and_idempotent (os : OS) (pc : perf_counter) :
    (perf_counter_close os pc).1 = closedCounter
    ∧ perf_counter_close os closedCounter = (closedCounter, [])
    ∧ perf_counter_close os (perf_counter_close os pc).1 =
        ((perf_counter_close os pc).1, []) := by
  refine ⟨perf_counter_close_fst os pc, perf_counter_close_closed os, ?_⟩
  rw [perf_counter_close_fst os pc]
  exact perf_counter_close_closed os

/-- Claim C8: with a non-null mapping and a failing page-size query at
teardown, `perf_counter_close` skips the unmap, still closes a valid
descriptor, and resets both fields. -/
theorem claim_close_skips_unmap_on_pagesize_failure (os : OS)
    (pc : perf_counter) (page : Nat) (hpage : pc.metadata_page = some page)
    (hps : os.sysconf_pagesize < 1) :
    (perf_counter_close os pc).1 = closedCounter
    ∧ (∀ a l, SysEvent.sysMunmap a l ∉ (perf_counter_close os pc).2)
    ∧ (pc.fd ≠ -1 → (perf_counter_close os pc).2 = [SysEvent.sysClose pc.fd])
    ∧ (pc.fd = -1 → (perf_counter_close os pc).2 = []) := by
  obtain ⟨fd, mp⟩ := pc
  simp only at hpage
  subst hpage
  have hgp : get_page_size os = -1 := by simp [get_page_size, hps]
  simp only [perf_counter_close, hgp]
  by_cases h : fd = -1 <;> simp [h, closedCounter]

/-- Witness for C8: open handle, failing page-size query. -/
theorem claim_close_skips_unmap_on_pagesize_failure_witness :
    ((perf_counter.mk 5 (some 7)).metadata_page = some 7
      ∧ osPageFail.sysconf_pagesize < 1)
    ∧ (perf_counter_close osPageFail (perf_counter.mk 5 (some 7))).1 = closedCounter
    ∧ (∀ a l, SysEvent.sysMunmap a l ∉
        (perf_counter_close osPageFail (perf_counter.mk 5 (some 7))).2)
    ∧ ((perf_counter.mk 5 (some 7)).fd ≠ -1 →
        (perf_counter_close osPageFail (perf_counter.mk 5 (some 7))).2 =
          [SysEvent.sysClose (perf_counter.mk 5 (some 7)).fd])
    ∧ ((perf_counter.mk 5 (some 7)).fd = -1 →
        (perf_counter_close osPageFail (perf_counter.mk 5 (some 7))).2 = []) :=
  ⟨⟨rfl, by decide⟩,
   claim_close_skips_unmap_on_pagesize_failure osPageFail
     (perf_counter.mk 5 (some 7)) 7 rfl (by decide)⟩

/-- Claim C4: the attribute descriptor `perf_counter_open_by_id` passes to
the syscall gateway carries the given type and config, has disabled,
exclude-kernel and exclude-hv set, and pinned iff there is no group. -/
theorem claim_open_by_id_attr_policy (os : OS) (event_type event_config : Nat)
    (gfd : Int) :
    (perf_counter_open_by_id os event_type event_config gfd).2.head? =
      some (SysEvent.sysOpen
        (perf_counter_open_by_id_attr event_type event_config gfd) gfd)
    ∧ (perf_counter_open_by_id_attr event_type event_config gfd).type = event_type
    ∧ (perf_counter_open_by_id_attr event_type event_config gfd).config = event_config
    ∧ (perf_counter_open_by_id_attr event_type event_config gfd).disabled = true
    ∧ (perf_counter_open_by_id_attr event_type event_config gfd).exclude_kernel = true
    ∧ (perf_counter_open_by_id_attr event_type event_config gfd).exclude_hv = true
    ∧ ((perf_counter_open_by_id_attr event_type event_config gfd).pinned = true ↔
        gfd = -1) := by
  refine ⟨perf_counter_open_trace_head os _ gfd, rfl, rfl, rfl, rfl, rfl, ?_⟩
  simp [perf_counter_open_by_id_attr]

/-- Claim C10: every attribute field other than size, type, config and the
four policy bits is zero, and the attribute depends on nothing but the
`(event_type, event_config, group_fd)` triple (the environment does not
influence what is passed to the gateway). -/
theorem claim_open_by_id_attr_rest_zero (os os' : OS)
    (event_type event_config : Nat) (gfd : Int) :
    (perf_counter_open_by_id_attr event_type event_config gfd).sample_period = 0
    ∧ (perf_counter_open_by_id_attr event_type event_config gfd).inherit = false
    ∧ (perf_counter_open_by_id_attr event_type event_config gfd).mmap = false
    ∧ (perf_counter_open_by_id_attr event_type event_config gfd).comm = false
    ∧ (perf_counter_open_by_id_attr event_type event_config gfd).other_fields = 0
    ∧ (perf_counter_open_by_id_attr event_type event_config gfd).size =
        sizeof_perf_event_attr
    ∧ (perf_counter_open_by_id os event_type event_config gfd).2.head? =
        (perf_counter_open_by_id os' event_type event_config gfd).2.head? := by
  refine ⟨rfl, rfl, rfl, rfl, rfl, rfl, ?_⟩
  simp only [perf_counter_open_by_id]
  rw [perf_counter_open_trace_head, perf_counter_open_trace_head]

/-- Claim C9: enable and disable leave the handle's fields unchanged, issue
exactly one group-wide ioctl, and return the kernel's result unmodified. -/
theorem claim_enable_disable_frame (os : OS) (pc : perf_counter) :
    (perf_counter_enable os pc).1 = pc
    ∧ (perf_counter_enable os pc).2.1 =
        os.ioctl pc.fd PERF_EVENT_IOC_ENABLE PERF_IOC_FLAG_GROUP
    ∧ (perf_counter_enable os pc).2.2 =
        [SysEvent.sysIoctl pc.fd PERF_EVENT_IOC_ENABLE PERF_IOC_FLAG_GROUP]
    ∧ (perf_counter_disable os pc).1 = pc
    ∧ (perf_counter_disable os pc).2.1 =
        os.ioctl pc.fd PERF_EVENT_IOC_DISABLE PERF_IOC_FLAG_GROUP
    ∧ (perf_counter_disable os pc).2.2 =
        [SysEvent.sysIoctl pc.fd PERF_EVENT_IOC_DISABLE PERF_IOC_FLAG_GROUP] :=
  ⟨rfl, rfl, rfl, rfl, rfl, rfl⟩

/-- The kernel-open event is in every trace of `perf_counter_open`. -/
theorem perf_counter_open_trace_mem (os : OS) (attr : PerfEventAttr)
    (gfd : Int) :
    SysEvent.sysOpen attr gfd ∈ (perf_counter_open os attr gfd).2 := by
  simp only [perf_counter_open]
  split
  · exact List.mem_cons_self _ _
  · split <;> exact List.mem_cons_self _ _

/-- Characterization of `perf_counter_open_by_name` when initialization
succeeds and the translation succeeds. -/
theorem perf_counter_open_by_name_success_eq (os : OS) (s : GState)
    (event_name : String) (gfd : Int) (tattr : PerfEventAttr)
    (hok : s = GState.success ∨ (s = GState.uninit ∧ os.pfm_init_ok = true))
    (henc : os.pfm_get_os_event_encoding event_name = some tattr) :
    perf_counter_open_by_name os s event_name gfd =
      some ((perf_counter_open os (nameAttr tattr gfd) gfd).1, GState.success,
        (if s = GState.uninit then [SysEvent.pfmInit] else []) ++
          (perf_counter_open os (nameAttr tattr gfd) gfd).2) := by
  rcases hok with hs | ⟨hs, hini⟩
  · subst hs
    simp [perf_counter_open_by_name, ensure_libpfm_initialized_seq, henc]
  · subst hs
    simp [perf_counter_open_by_name, ensure_libpfm_initialized_seq, henc, hini]

/-- Claim C6: when the one-time initialization has failed (or fails now) or
the name translation fails, `perf_counter_open_by_name` returns the closed
sentinel without invoking the syscall gateway; once the state is `failed`
every call returns immediately with no further `pfm_initialize` call, and a
first failing initialization publishes the permanent `failed` state. -/
theorem claim_open_by_name_failfast (os : OS) (s : GState)
    (event_name : String) (gfd : Int) (hs : s ≠ GState.inProgress)
    (hfail : s = GState.failed
      ∨ (s = GState.uninit ∧ os.pfm_init_ok = false)
      ∨ os.pfm_get_os_event_encoding event_name = none) :
    ∃ s1 tr,
      perf_counter_open_by_name os s event_name gfd =
        some (closedCounter, s1, tr)
      ∧ (∀ a g, SysEvent.sysOpen a g ∉ tr)
      ∧ (s = GState.failed → s1 = GState.failed ∧ tr = [])
      ∧ (s = GState.uninit ∧ os.pfm_init_ok = false →
          s1 = GState.failed ∧ tr = [SysEvent.pfmInit]) := by
  cases s with
  | inProgress => exact absurd rfl hs
  | failed =>
      refine ⟨GState.failed, [], ?_, by simp, fun _ => ⟨rfl, rfl⟩, ?_⟩
      · simp [perf_counter_open_by_name, ensure_libpfm_initialized_seq]
      · rintro ⟨h, -⟩; cases h
  | uninit =>
      cases hini : os.pfm_init_ok with
      | false =>
          refine ⟨GState.failed, [SysEvent.pfmInit], ?_, by simp, ?_, ?_⟩
          · simp [perf_counter_open_by_name, ensure_libpfm_initialized_seq, hini]
          · intro h; cases h
          · intro _; exact ⟨rfl, rfl⟩
      | true =>
          have henc : os.pfm_get_os_event_encoding event_name = none := by
            rcases hfail with h | ⟨-, h⟩ | h
            · cases h
            · rw [hini] at h; cases h
            · exact h
          refine ⟨GState.success, [SysEvent.pfmInit], ?_, by simp, ?_, ?_⟩
          · simp [perf_counter_open_by_name, ensure_libpfm_initialized_seq,
              hini, henc]
          · intro h; cases h
          · rintro ⟨-, h⟩; cases h
  | success =>
      have henc : os.pfm_get_os_event_encoding event_name = none := by
        rcases hfail with h | ⟨h, -⟩ | h
        · cases h
        · cases h
        · exact h
      refine ⟨GState.success, [], ?_, by simp, ?_, ?_⟩
      · simp [perf_counter_open_by_name, ensure_libpfm_initialized_seq, henc]
      · intro h; cases h
      · rintro ⟨h, -⟩; cases h

/-- Witness for C6: failing initialization on the first name-based open. -/
theorem claim_open_by_name_failfast_witness :
    (GState.uninit ≠ GState.inProgress ∧ osInitFail.pfm_init_ok = false)
    ∧ ∃ s1 tr,
        perf_counter_open_by_name osInitFail GState.uninit "ev" (-1) =
          some (closedCounter, s1, tr)
        ∧ (∀ a g, SysEvent.sysOpen a g ∉ tr)
        ∧ (GState.uninit = GState.failed → s1 = GState.failed ∧ tr = [])
        ∧ (GState.uninit = GState.uninit ∧ osInitFail.pfm_init_ok = false →
            s1 = GState.failed ∧ tr = [SysEvent.pfmInit]) :=
  ⟨⟨by decide, by decide⟩,
   claim_open_by_name_failfast osInitFail GState.uninit "ev" (-1) (by decide)
     (Or.inr (Or.inl ⟨rfl, by decide⟩))⟩

/-- The encoding `osEncodePinned` produces, after `perf_counter_open_by_name`
applies its adjustments with a group descriptor different from `-1`:
`disabled` is forced on and the translated `pinned` bit survives. -/
def pinnedAttrAdjusted : PerfEventAttr :=
  { zeroAttr with type := 4, pinned := true, disabled := true }

/-- Counterexample to C7 as stated: it is not the case that for every
successful translation the attribute passed to `perf_counter_open` has its
pinned flag set iff the group descriptor is `-1`.  If the translated
encoding already carries the pinned bit, the code leaves it set even for a
grouped counter (`group_fd = 0`). -/
theorem claim_open_by_name_pinned_iff_counterexample :
    ¬ (∀ (os : OS) (s : GState) (event_name : String) (gfd : Int)
        (pc : perf_counter) (s1 : GState) (tr : List SysEvent)
        (a : PerfEventAttr),
        os.pfm_get_os_event_encoding event_name ≠ none →
        perf_counter_open_by_name os s event_name gfd = some (pc, s1, tr) →
        SysEvent.sysOpen a gfd ∈ tr →
        (a.pinned = true ↔ gfd = -1)) := by
  intro h
  have h2 := h osEncodePinned GState.success "ev" 0
      (perf_counter.mk 3 (some 7)) GState.success
      [SysEvent.sysOpen pinnedAttrAdjusted 0] pinnedAttrAdjusted
      (by decide) (by decide) (by decide)
  exact absurd (h2.mp (by decide)) (by decide)

/-- Claim C7 (amended): when translation succeeds, the attribute passed on
to `perf_counter_open` has `disabled` forced on; `pinned` is forced on when
the group descriptor is `-1` and otherwise left exactly as the translation
produced it (never cleared); the exclude-kernel/exclude-hv bits — and the
type and config — are exactly the translation's. -/
theorem claim_open_by_name_attr_policy (os : OS) (s : GState)
    (event_name : String) (gfd : Int) (tattr : PerfEventAttr)
    (hok : s = GState.success ∨ (s = GState.uninit ∧ os.pfm_init_ok = true))
    (henc : os.pfm_get_os_event_encoding event_name = some tattr) :
    ∃ pc s1 tr,
      perf_counter_open_by_name os s event_name gfd = some (pc, s1, tr)
      ∧ SysEvent.sysOpen (nameAttr tattr gfd) gfd ∈ tr
      ∧ (nameAttr tattr gfd).disabled = true
      ∧ (gfd = -1 → (nameAttr tattr gfd).pinned = true)
      ∧ (gfd ≠ -1 → (nameAttr tattr gfd).pinned = tattr.pinned)
      ∧ (nameAttr tattr gfd).exclude_kernel = tattr.exclude_kernel
      ∧ (nameAttr tattr gfd).exclude_hv = tattr.exclude_hv
      ∧ (nameAttr tattr gfd).type = tattr.type
      ∧ (nameAttr tattr gfd).config = tattr.config := by
  refine ⟨_, _, _,
    perf_counter_open_by_name_success_eq os s event_name gfd tattr hok henc,
    ?_, ?_, ?_, ?_, ?_, ?_, ?_, ?_⟩
  · exact List.mem_append.mpr
      (Or.inr (perf_counter_open_trace_mem os (nameAttr tattr gfd) gfd))
  · by_cases hg : gfd = -1 <;> simp [nameAttr, hg]
  · intro hg; simp [nameAttr, hg]
  · intro hg; simp [nameAttr, hg]
  · by_cases hg : gfd = -1 <;> simp [nameAttr, hg]
  · by_cases hg : gfd = -1 <;> simp [nameAttr, hg]
  · by_cases hg : gfd = -1 <;> simp [nameAttr, hg]
  · by_cases hg : gfd = -1 <;> simp [nameAttr, hg]

/-- Witness for the amended C7 at a concrete standalone open. -/
theorem claim_open_by_name_attr_policy_witness :
    (GState.success = GState.success
        ∨ (GState.success = GState.uninit ∧ osOpenOk.pfm_init_ok = true))
    ∧ osOpenOk.pfm_get_os_event_encoding "ev" =
        some { zeroAttr with type := 4, config := 2 }
    ∧ ∃ pc s1 tr,
        perf_counter_open_by_name osOpenOk GState.success "ev" (-1) =
          some (pc, s1, tr)
        ∧ SysEvent.sysOpen (nameAttr { zeroAttr with type := 4, config := 2 } (-1))
            (-1) ∈ tr
        ∧ (nameAttr { zeroAttr with type := 4, config := 2 } (-1)).disabled = true
        ∧ ((-1 : Int) = -1 →
            (nameAttr { zeroAttr with type := 4, config := 2 } (-1)).pinned = true)
        ∧ ((-1 : Int) ≠ -1 →
            (nameAttr { zeroAttr with type := 4, config := 2 } (-1)).pinned =
              ({ zeroAttr with type := 4, config := 2 } : PerfEventAttr).pinned)
        ∧ (nameAttr { zeroAttr with type := 4, config := 2 } (-1)).exclude_kernel =
            ({ zeroAttr with type := 4, config := 2 } : PerfEventAttr).exclude_kernel
        ∧ (nameAttr { zeroAttr with type := 4, config := 2 } (-1)).exclude_hv =
            ({ zeroAttr with type := 4, config := 2 } : PerfEventAttr).exclude_hv
        ∧ (nameAttr { zeroAttr with type := 4, config := 2 } (-1)).type =
            ({ zeroAttr with type := 4, config := 2 } : PerfEventAttr).type
        ∧ (nameAttr { zeroAttr with type := 4, config := 2 } (-1)).config =
            ({ zeroAttr with type := 4, config := 2 } : PerfEventAttr).config :=
  ⟨Or.inl rfl, rfl,
   claim_open_by_name_attr_policy osOpenOk GState.success "ev" (-1)
     { zeroAttr with type := 4, config := 2 } (Or.inl rfl) rfl⟩

/-! ## Concurrent model of `ensure_libpfm_initialized`

Each of `n` threads executes the body of `ensure_libpfm_initialized`
against the shared atomic `current_state`; every atomic access is one step
of an interleaving transition system.  The thread-local control points
follow the source line by line: the initial `atomic_load` with its three-way
branch, the `atomic_compare_exchange_strong`, the winner's
`pfm_initialize()` call followed by the publishing `atomic_store`, the
losers' busy-wait loop re-loading the state, and the final load computing
the return value. -/

/-- Thread-local control state inside `ensure_libpfm_initialized`. -/
inductive TState
  /-- About to perform the initial `atomic_load`. -/
  | start
  /-- Initial load observed a non-terminal state; about to attempt the
  compare-and-swap `UNINITIALIZED → IN_PROGRESS`. -/
  | tryCAS
  /-- Won the compare-and-swap; about to call `pfm_initialize()`. -/
  | calling
  /-- `pfm_initialize()` returned `r`; about to `atomic_store` the
  terminal state. -/
  | publish (r : Bool)
  /-- Lost the compare-and-swap; busy-waiting on the shared state. -/
  | waiting
  /-- Busy-wait observed a non-`IN_PROGRESS` state; about to perform the
  final load that computes the return value. -/
  | finalCheck
  /-- Returned `r` from `ensure_libpfm_initialized`. -/
  | done (r : Bool)
deriving DecidableEq, Repr

/-- A configuration of the concurrent system: the shared atomic state, each
thread's control state, how many times `pfm_initialize()` has been invoked,
and which thread (if any) won the `uninitialized → in-progress` race. -/
structure Config (n : Nat) where
  g : GState
  ts : Fin n → TState
  calls : Nat
  winner : Option (Fin n)

/-- Initial configuration: state `UNINITIALIZED`, every thread at the
initial load, no initialization call performed, no winner. -/
def initConfig (n : Nat) : Config n :=
  { g := GState.uninit, ts := fun _ => TState.start, calls := 0, winner := none }

/-- One interleaved atomic step of some thread.  `pr` is the result
`pfm_initialize()` returns in this process (`true` for `PFM_SUCCESS`). -/
inductive Step (pr : Bool) {n : Nat} : Config n → Config n → Prop
  /-- Initial load sees `STATE_SUCCESS`: return `true`. -/
  | load_success (c : Config n) (i : Fin n) (hi : c.ts i = TState.start)
      (hg : c.g = GState.success) :
      Step pr c { c with ts := Function.update c.ts i (TState.done true) }
  /-- Initial load sees `STATE_FAILED`: return `false`. -/
  | load_failed (c : Config n) (i : Fin n) (hi : c.ts i = TState.start)
      (hg : c.g = GState.failed) :
      Step pr c { c with ts := Function.update c.ts i (TState.done false) }
  /-- Initial load sees a non-terminal state: proceed to the CAS. -/
  | load_other (c : Config n) (i : Fin n) (hi : c.ts i = TState.start)
      (hg : c.g = GState.uninit ∨ c.g = GState.inProgress) :
      Step pr c { c with ts := Function.update c.ts i TState.tryCAS }
  /-- The CAS succeeds: claim initialization responsibility. -/
  | cas_win (c : Config n) (i : Fin n) (hi : c.ts i = TState.tryCAS)
      (hg : c.g = GState.uninit) :
      Step pr c { g := GState.inProgress,
                  ts := Function.update c.ts i TState.calling,
                  calls := c.calls, winner := some i }
  /-- The CAS fails (someone else claimed it): enter the busy-wait. -/
  | cas_lose (c : Config n) (i : Fin n) (hi : c.ts i = TState.tryCAS)
      (hg : c.g ≠ GState.uninit) :
      Step pr c { c with ts := Function.update c.ts i TState.waiting }
  /-- The winner invokes `pfm_initialize()`. -/
  | call (c : Config n) (i : Fin n) (hi : c.ts i = TState.calling) :
      Step pr c { c with ts := Function.update c.ts i (TState.publish pr),
                         calls := c.calls + 1 }
  /-- The winner stores the terminal state and returns its result. -/
  | store (c : Config n) (i : Fin n) (r : Bool)
      (hi : c.ts i = TState.publish r) :
      Step pr c { c with
                  g := if r then GState.success else GState.failed,
                  ts := Function.update c.ts i (TState.done r) }
  /-- A busy-waiting thread re-loads `STATE_IN_PROGRESS` and spins. -/
  | wait_spin (c : Config n) (i : Fin n) (hi : c.ts i = TState.waiting)
      (hg : c.g = GState.inProgress) :
      Step pr c c
  /-- A busy-waiting thread observes a non-`IN_PROGRESS` state and exits
  the loop. -/
  | wait_exit (c : Config n) (i : Fin n) (hi : c.ts i = TState.waiting)
      (hg : c.g ≠ GState.inProgress) :
      Step pr c { c with ts := Function.update c.ts i TState.finalCheck }
  /-- The final load computes the return value `state == STATE_SUCCESS`. -/
  | final_load (c : Config n) (i : Fin n) (hi : c.ts i = TState.finalCheck) :
      Step pr c { c with
                  ts := Function.update c.ts i
                    (TState.done (decide (c.g = GState.success))) }

/-- Reachability from the initial configuration by interleaved steps. -/
def Reachable (pr : Bool) (n : Nat) (c : Config n) : Prop :=
  Relation.ReflTransGen (Step pr) (initConfig n) c

/-- The inductive invariant of the concurrent one-time-initialization
machine. -/
def InitInv (pr : Bool) {n : Nat} (c : Config n) : Prop :=
  c.calls ≤ 1
  ∧ (c.g = GState.uninit → c.winner = none ∧ c.calls = 0
      ∧ ∀ i, c.ts i = TState.start ∨ c.ts i = TState.tryCAS)
  ∧ (∀ i, (c.ts i = TState.calling ∨ ∃ r, c.ts i = TState.publish r) →
      c.winner = some i)
  ∧ (∀ i, c.ts i = TState.calling → c.g = GState.inProgress ∧ c.calls = 0)
  ∧ (∀ i r, c.ts i = TState.publish r →
      c.g = GState.inProgress ∧ c.calls = 1 ∧ r = pr)
  ∧ (c.g = GState.inProgress → ∃ i, c.winner = some i
      ∧ (c.ts i = TState.calling ∨ c.ts i = TState.publish pr))
  ∧ (c.g = GState.success → c.calls = 1 ∧ pr = true)
  ∧ (c.g = GState.failed → c.calls = 1 ∧ pr = false)
  ∧ (∀ i, c.ts i = TState.done true → c.g = GState.success)
  ∧ (∀ i, c.ts i = TState.done false → c.g = GState.failed)
  ∧ (∀ i, c.ts i = TState.waiting → c.g ≠ GState.uninit)
  ∧ (∀ i, c.ts i = TState.finalCheck →
      c.g = GState.success ∨ c.g = GState.failed)

/-- The invariant holds initially. -/
theorem inv_init (pr : Bool) (n : Nat) : InitInv pr (initConfig n) := by
  refine ⟨by simp [initConfig], ?_, ?_, ?_, ?_, ?_, ?_, ?_, ?_, ?_, ?_, ?_⟩ <;>
    simp [initConfig]


/-- The invariant is preserved by every interleaved step. -/
theorem inv_step (pr : Bool) {n : Nat} {c c' : Config n}
    (h : InitInv pr c) (hs : Step pr c c') : InitInv pr c' := by
  obtain ⟨h1, h2, h3, h4, h5, h6, h7, h8, h9, h10, h11, h12⟩ := h
  cases hs with
  | load_success i hi hg =>
      refine ⟨h1, ?_, ?_, ?_, ?_, ?_, ?_, ?_, ?_, ?_, ?_, ?_⟩
      · intro hgu; exact absurd (hg.symm.trans hgu) (by decide)
      · intro j hj
        by_cases hij : j = i
        · subst hij; simp at hj
        · simp only [Function.update_noteq hij] at hj; exact h3 j hj
      · intro j hj
        by_cases hij : j = i
        · subst hij; simp at hj
        · simp only [Function.update_noteq hij] at hj; exact h4 j hj
      · intro j r hj
        by_cases hij : j = i
        · subst hij; simp at hj
        · simp only [Function.update_noteq hij] at hj; exact h5 j r hj
      · intro hgp; exact absurd (hg.symm.trans hgp) (by decide)
      · exact h7
      · intro hgf; exact absurd (hg.symm.trans hgf) (by decide)
      · intro j hj; exact hg
      · intro j hj
        by_cases hij : j = i
        · subst hij; simp at hj
        · simp only [Function.update_noteq hij] at hj; exact h10 j hj
      · intro j hj
        by_cases hij : j = i
        · subst hij; simp at hj
        · simp only [Function.update_noteq hij] at hj; exact h11 j hj
      · intro j hj
        by_cases hij : j = i
        · subst hij; simp at hj
        · simp only [Function.update_noteq hij] at hj; exact h12 j hj
  | load_failed i hi hg =>
      refine ⟨h1, ?_, ?_, ?_, ?_, ?_, ?_, ?_, ?_, ?_, ?_, ?_⟩
      · intro hgu; exact absurd (hg.symm.trans hgu) (by decide)
      · intro j hj
        by_cases hij : j = i
        · subst hij; simp at hj
        · simp only [Function.update_noteq hij] at hj; exact h3 j hj
      · intro j hj
        by_cases hij : j = i
        · subst hij; simp at hj
        · simp only [Function.update_noteq hij] at hj; exact h4 j hj
      · intro j r hj
        by_cases hij : j = i
        · subst hij; simp at hj
        · simp only [Function.update_noteq hij] at hj; exact h5 j r hj
      · intro hgp; exact absurd (hg.symm.trans hgp) (by decide)
      · intro hgs; exact absurd (hg.symm.trans hgs) (by decide)
      · exact h8
      · intro j hj
        by_cases hij : j = i
        · subst hij; simp at hj
        · simp only [Function.update_noteq hij] at hj; exact h9 j hj
      · intro j hj; exact hg
      · intro j hj
        by_cases hij : j = i
        · subst hij; simp at hj
        · simp only [Function.update_noteq hij] at hj; exact h11 j hj
      · intro j hj
        by_cases hij : j = i
        · subst hij; simp at hj
        · simp only [Function.update_noteq hij] at hj; exact h12 j hj
  | load_other i hi hg =>
      refine ⟨h1, ?_, ?_, ?_, ?_, ?_, ?_, ?_, ?_, ?_, ?_, ?_⟩
      · intro hgu
        obtain ⟨hw, hk, hts⟩ := h2 hgu
        refine ⟨hw, hk, ?_⟩
        intro j
        by_cases hij : j = i
        · subst hij
          exact Or.inr (Function.update_same j TState.tryCAS c.ts)
        · simp only [Function.update_noteq hij]; exact hts j
      · intro j hj
        by_cases hij : j = i
        · subst hij; simp at hj
        · simp only [Function.update_noteq hij] at hj; exact h3 j hj
      · intro j hj
        by_cases hij : j = i
        · subst hij; simp at hj
        · simp only [Function.update_noteq hij] at hj; exact h4 j hj
      · intro j r hj
        by_cases hij : j = i
        · subst hij; simp at hj
        · simp only [Function.update_noteq hij] at hj; exact h5 j r hj
      · intro hgp
        obtain ⟨w, hw, hcase⟩ := h6 hgp
        refine ⟨w, hw, ?_⟩
        by_cases hwi : w = i
        · subst hwi
          rcases hcase with hc | hc <;> rw [hi] at hc <;> cases hc
        · simp only [Function.update_noteq hwi]; exact hcase
      · intro hgs
        rcases hg with hg | hg <;> exact absurd (hg.symm.trans hgs) (by decide)
      · intro hgf
        rcases hg with hg | hg <;> exact absurd (hg.symm.trans hgf) (by decide)
      · intro j hj
        by_cases hij : j = i
        · subst hij; simp at hj
        · simp only [Function.update_noteq hij] at hj; exact h9 j hj
      · intro j hj
        by_cases hij : j = i
        · subst hij; simp at hj
        · simp only [Function.update_noteq hij] at hj; exact h10 j hj
      · intro j hj
        by_cases hij : j = i
        · subst hij; simp at hj
        · simp only [Function.update_noteq hij] at hj; exact h11 j hj
      · intro j hj
        by_cases hij : j = i
        · subst hij; simp at hj
        · simp only [Function.update_noteq hij] at hj; exact h12 j hj
  | cas_win i hi hg =>
      obtain ⟨hw, hk, hts⟩ := h2 hg
      refine ⟨h1, ?_, ?_, ?_, ?_, ?_, ?_, ?_, ?_, ?_, ?_, ?_⟩
      · intro hgu; simp at hgu
      · intro j hj
        by_cases hij : j = i
        · subst hij; rfl
        · simp only [Function.update_noteq hij] at hj
          rcases hj with hj | ⟨r, hj⟩ <;>
            rcases hts j with hts' | hts' <;> rw [hts'] at hj <;> cases hj
      · intro j hj
        by_cases hij : j = i
        · subst hij; exact ⟨rfl, hk⟩
        · simp only [Function.update_noteq hij] at hj
          rcases hts j with hts' | hts' <;> rw [hts'] at hj <;> cases hj
      · intro j r hj
        by_cases hij : j = i
        · subst hij; simp at hj
        · simp only [Function.update_noteq hij] at hj
          rcases hts j with hts' | hts' <;> rw [hts'] at hj <;> cases hj
      · intro _
        exact ⟨i, rfl, Or.inl (Function.update_same i TState.calling c.ts)⟩
      · intro hgs; simp at hgs
      · intro hgf; simp at hgf
      · intro j hj
        by_cases hij : j = i
        · subst hij; simp at hj
        · simp only [Function.update_noteq hij] at hj
          rcases hts j with hts' | hts' <;> rw [hts'] at hj <;> cases hj
      · intro j hj
        by_cases hij : j = i
        · subst hij; simp at hj
        · simp only [Function.update_noteq hij] at hj
          rcases hts j with hts' | hts' <;> rw [hts'] at hj <;> cases hj
      · intro j hj hgu; simp at hgu
      · intro j hj
        by_cases hij : j = i
        · subst hij; simp at hj
        · simp only [Function.update_noteq hij] at hj
          rcases hts j with hts' | hts' <;> rw [hts'] at hj <;> cases hj
  | cas_lose i hi hg =>
      refine ⟨h1, ?_, ?_, ?_, ?_, ?_, ?_, ?_, ?_, ?_, ?_, ?_⟩
      · intro hgu; exact absurd hgu hg
      · intro j hj
        by_cases hij : j = i
        · subst hij; simp at hj
        · simp only [Function.update_noteq hij] at hj; exact h3 j hj
      · intro j hj
        by_cases hij : j = i
        · subst hij; simp at hj
        · simp only [Function.update_noteq hij] at hj; exact h4 j hj
      · intro j r hj
        by_cases hij : j = i
        · subst hij; simp at hj
        · simp only [Function.update_noteq hij] at hj; exact h5 j r hj
      · intro hgp
        obtain ⟨w, hw, hcase⟩ := h6 hgp
        refine ⟨w, hw, ?_⟩
        by_cases hwi : w = i
        · subst hwi
          rcases hcase with hc | hc <;> rw [hi] at hc <;> cases hc
        · simp only [Function.update_noteq hwi]; exact hcase
      · exact h7
      · exact h8
      · intro j hj
        by_cases hij : j = i
        · subst hij; simp at hj
        · simp only [Function.update_noteq hij] at hj; exact h9 j hj
      · intro j hj
        by_cases hij : j = i
        · subst hij; simp at hj
        · simp only [Function.update_noteq hij] at hj; exact h10 j hj
      · intro j hj; exact hg
      · intro j hj
        by_cases hij : j = i
        · subst hij; simp at hj
        · simp only [Function.update_noteq hij] at hj; exact h12 j hj
  | call i hi =>
      obtain ⟨hgP, hk⟩ := h4 i hi
      refine ⟨?_, ?_, ?_, ?_, ?_, ?_, ?_, ?_, ?_, ?_, ?_, ?_⟩
      · show c.calls + 1 ≤ 1; omega
      · intro hgu; exact absurd (hgP.symm.trans hgu) (by decide)
      · intro j hj
        by_cases hij : j = i
        · subst hij; exact h3 j (Or.inl hi)
        · simp only [Function.update_noteq hij] at hj; exact h3 j hj
      · intro j hj
        by_cases hij : j = i
        · subst hij; simp at hj
        · simp only [Function.update_noteq hij] at hj
          have hwj := h3 j (Or.inl hj)
          have hwi := h3 i (Or.inl hi)
          exact absurd (Option.some.inj (hwj.symm.trans hwi)) hij
      · intro j r hj
        by_cases hij : j = i
        · subst hij
          simp only [Function.update_same] at hj
          refine ⟨hgP, ?_, ?_⟩
          · show c.calls + 1 = 1; omega
          · exact (TState.publish.inj hj).symm
        · simp only [Function.update_noteq hij] at hj
          have hwj := h3 j (Or.inr ⟨r, hj⟩)
          have hwi := h3 i (Or.inl hi)
          exact absurd (Option.some.inj (hwj.symm.trans hwi)) hij
      · intro hgp
        refine ⟨i, h3 i (Or.inl hi), Or.inr ?_⟩
        exact Function.update_same i (TState.publish pr) c.ts
      · intro hgs; exact absurd (hgP.symm.trans hgs) (by decide)
      · intro hgf; exact absurd (hgP.symm.trans hgf) (by decide)
      · intro j hj
        by_cases hij : j = i
        · subst hij; simp at hj
        · simp only [Function.update_noteq hij] at hj; exact h9 j hj
      · intro j hj
        by_cases hij : j = i
        · subst hij; simp at hj
        · simp only [Function.update_noteq hij] at hj; exact h10 j hj
      · intro j hj hgu; exact absurd (hgP.symm.trans hgu) (by decide)
      · intro j hj
        by_cases hij : j = i
        · subst hij; simp at hj
        · simp only [Function.update_noteq hij] at hj; exact h12 j hj
  | store i r hi =>
      obtain ⟨hgP, hk1, hrp⟩ := h5 i r hi
      refine ⟨h1, ?_, ?_, ?_, ?_, ?_, ?_, ?_, ?_, ?_, ?_, ?_⟩
      · intro hgu; cases r <;> simp at hgu
      · intro j hj
        by_cases hij : j = i
        · subst hij; simp at hj
        · simp only [Function.update_noteq hij] at hj; exact h3 j hj
      · intro j hj
        by_cases hij : j = i
        · subst hij; simp at hj
        · simp only [Function.update_noteq hij] at hj
          exact absurd (h4 j hj).2 (by omega)
      · intro j r' hj
        by_cases hij : j = i
        · subst hij; simp at hj
        · simp only [Function.update_noteq hij] at hj
          have hwj := h3 j (Or.inr ⟨r', hj⟩)
          have hwi := h3 i (Or.inr ⟨r, hi⟩)
          exact absurd (Option.some.inj (hwj.symm.trans hwi)) hij
      · intro hgp; cases r <;> simp at hgp
      · intro hgs
        cases r with
        | false => simp at hgs
        | true => exact ⟨hk1, hrp.symm⟩
      · intro hgf
        cases r with
        | false => exact ⟨hk1, hrp.symm⟩
        | true => simp at hgf
      · intro j hj
        by_cases hij : j = i
        · subst hij
          simp only [Function.update_same] at hj
          have hr := TState.done.inj hj
          show (if r then GState.success else GState.failed) = GState.success
          simp [hr]
        · simp only [Function.update_noteq hij] at hj
          exact absurd (hgP.symm.trans (h9 j hj)) (by decide)
      · intro j hj
        by_cases hij : j = i
        · subst hij
          simp only [Function.update_same] at hj
          have hr := TState.done.inj hj
          show (if r then GState.success else GState.failed) = GState.failed
          simp [hr]
        · simp only [Function.update_noteq hij] at hj
          exact absurd (hgP.symm.trans (h10 j hj)) (by decide)
      · intro j hj hgu; cases r <;> simp at hgu
      · intro j hj
        cases r with
        | false => exact Or.inr rfl
        | true => exact Or.inl rfl
  | wait_spin i hi hg =>
      exact ⟨h1, h2, h3, h4, h5, h6, h7, h8, h9, h10, h11, h12⟩
  | wait_exit i hi hg =>
      have hgu := h11 i hi
      have hterm : c.g = GState.success ∨ c.g = GState.failed := by
        cases hcg : c.g with
        | uninit => exact absurd hcg hgu
        | inProgress => exact absurd hcg hg
        | success => exact Or.inl rfl
        | failed => exact Or.inr rfl
      refine ⟨h1, ?_, ?_, ?_, ?_, ?_, ?_, ?_, ?_, ?_, ?_, ?_⟩
      · intro hgu'; exact absurd hgu' hgu
      · intro j hj
        by_cases hij : j = i
        · subst hij; simp at hj
        · simp only [Function.update_noteq hij] at hj; exact h3 j hj
      · intro j hj
        by_cases hij : j = i
        · subst hij; simp at hj
        · simp only [Function.update_noteq hij] at hj; exact h4 j hj
      · intro j r hj
        by_cases hij : j = i
        · subst hij; simp at hj
        · simp only [Function.update_noteq hij] at hj; exact h5 j r hj
      · intro hgp; exact absurd hgp hg
      · exact h7
      · exact h8
      · intro j hj
        by_cases hij : j = i
        · subst hij; simp at hj
        · simp only [Function.update_noteq hij] at hj; exact h9 j hj
      · intro j hj
        by_cases hij : j = i
        · subst hij; simp at hj
        · simp only [Function.update_noteq hij] at hj; exact h10 j hj
      · intro j hj; exact hgu
      · intro j hj; exact hterm
  | final_load i hi =>
      have hterm := h12 i hi
      refine ⟨h1, ?_, ?_, ?_, ?_, ?_, ?_, ?_, ?_, ?_, ?_, ?_⟩
      · intro hgu
        rcases hterm with h' | h' <;> exact absurd (h'.symm.trans hgu) (by decide)
      · intro j hj
        by_cases hij : j = i
        · subst hij; simp at hj
        · simp only [Function.update_noteq hij] at hj; exact h3 j hj
      · intro j hj
        by_cases hij : j = i
        · subst hij; simp at hj
        · simp only [Function.update_noteq hij] at hj; exact h4 j hj
      · intro j r hj
        by_cases hij : j = i
        · subst hij; simp at hj
        · simp only [Function.update_noteq hij] at hj; exact h5 j r hj
      · intro hgp
        rcases hterm with h' | h' <;> exact absurd (h'.symm.trans hgp) (by decide)
      · exact h7
      · exact h8
      · intro j hj
        by_cases hij : j = i
        · subst hij
          simp only [Function.update_same] at hj
          exact of_decide_eq_true (TState.done.inj hj)
        · simp only [Function.update_noteq hij] at hj; exact h9 j hj
      · intro j hj
        by_cases hij : j = i
        · subst hij
          simp only [Function.update_same] at hj
          have hd := of_decide_eq_false (TState.done.inj hj)
          rcases hterm with h' | h'
          · exact absurd h' hd
          · exact h'
        · simp only [Function.update_noteq hij] at hj; exact h10 j hj
      · intro j hj hgu
        rcases hterm with h' | h' <;> exact absurd (h'.symm.trans hgu) (by decide)
      · intro j hj; exact hterm

/-- Every reachable configuration satisfies the invariant. -/
theorem inv_reachable (pr : Bool) (n : Nat) (c : Config n)
    (h : Reachable pr n c) : InitInv pr c := by
  induction h with
  | refl => exact inv_init pr n
  | tail hab hbc ih => exact inv_step pr ih hbc

/-- Once the shared state is terminal, no step changes it. -/
theorem terminal_permanent (pr : Bool) {n : Nat} {c c' : Config n}
    (h : InitInv pr c)
    (hterm : c.g = GState.success ∨ c.g = GState.failed)
    (hs : Step pr c c') : c'.g = c.g := by
  obtain ⟨h1, h2, h3, h4, h5, h6, h7, h8, h9, h10, h11, h12⟩ := h
  cases hs with
  | load_success i hi hg => rfl
  | load_failed i hi hg => rfl
  | load_other i hi hg => rfl
  | cas_win i hi hg =>
      rcases hterm with h' | h' <;> rw [hg] at h' <;> cases h'
  | cas_lose i hi hg => rfl
  | call i hi => rfl
  | store i r hi =>
      have hgP := (h5 i r hi).1
      rcases hterm with h' | h' <;> rw [hgP] at h' <;> cases h'
  | wait_spin i hi hg => rfl
  | wait_exit i hi hg => rfl
  | final_load i hi => rfl

/-- Claim C5: in every interleaved execution of `ensure_libpfm_initialized`
by any number of threads, `pfm_initialize` runs at most once; only the
single race winner ever holds the calling/publishing role; every caller
that has returned did so after the (single) initialization call, observed
the outcome `pfm_initialize` produced, and did so with the shared state at
the corresponding permanent terminal value; all returned callers agree; and
a terminal state is never changed by any further step. -/
theorem claim_ensure_libpfm_initialized_once (pr : Bool) (n : Nat)
    (c : Config n) (h : Reachable pr n c) :
    c.calls ≤ 1
    ∧ (∀ i, (c.ts i = TState.calling ∨ ∃ r, c.ts i = TState.publish r) →
        c.winner = some i)
    ∧ (∀ i r, c.ts i = TState.done r →
        c.calls = 1 ∧ r = pr
          ∧ c.g = (if pr then GState.success else GState.failed))
    ∧ (∀ i j r r', c.ts i = TState.done r → c.ts j = TState.done r' → r = r')
    ∧ ((c.g = GState.success ∨ c.g = GState.failed) →
        ∀ c', Step pr c c' → c'.g = c.g) := by
  have hinv := inv_reachable pr n c h
  obtain ⟨h1, h2, h3, h4, h5, h6, h7, h8, h9, h10, h11, h12⟩ := hinv
  refine ⟨h1, h3, ?_, ?_, ?_⟩
  · intro i r hr
    cases r with
    | false =>
        have hgf := h10 i hr
        obtain ⟨hc, hp⟩ := h8 hgf
        exact ⟨hc, hp.symm, by rw [hgf, hp]; decide⟩
    | true =>
        have hgs := h9 i hr
        obtain ⟨hc, hp⟩ := h7 hgs
        exact ⟨hc, hp.symm, by rw [hgs, hp]; decide⟩
  · intro i j r r' hri hrj
    cases r <;> cases r'
    · rfl
    · exact absurd ((h10 i hri).symm.trans (h9 j hrj)) (by decide)
    · exact absurd ((h9 i hri).symm.trans (h10 j hrj)) (by decide)
    · rfl
  · intro hterm c' hs
    exact terminal_permanent pr
      ⟨h1, h2, h3, h4, h5, h6, h7, h8, h9, h10, h11, h12⟩ hterm hs

/-- Witness for C5 at the initial configuration of a one-thread system. -/
theorem claim_ensure_libpfm_initialized_once_witness :
    (initConfig 1).calls ≤ 1
    ∧ (∀ i, ((initConfig 1).ts i = TState.calling
          ∨ ∃ r, (initConfig 1).ts i = TState.publish r) →
        (initConfig 1).winner = some i)
    ∧ (∀ i r, (initConfig 1).ts i = TState.done r →
        (initConfig 1).calls = 1 ∧ r = true
          ∧ (initConfig 1).g = (if true then GState.success else GState.failed))
    ∧ (∀ i j r r', (initConfig 1).ts i = TState.done r →
        (initConfig 1).ts j = TState.done r' → r = r')
    ∧ (((initConfig 1).g = GState.success ∨ (initConfig 1).g = GState.failed) →
        ∀ c', Step true (initConfig 1) c' → c'.g = (initConfig 1).g) :=
  claim_ensure_libpfm_initialized_once true 1 (initConfig 1)
    Relation.ReflTransGen.refl
